import Mathlib

/-!
Verification of the Binance polling bot (`main.py`): a shallow embedding of
its pure logic.  Network effects are modelled by explicit outcome values
(`HttpOutcome`, `ServiceOutcome`), the two `/tmp` marker files by explicit
state values threaded through the functions, `time.time()` by an integer
parameter, and Python floats by exact rationals (no arithmetic is performed
on them beyond parsing, so `ℚ` is a faithful carrier).  Python string
operations used by the script (strip, splitlines, startswith, isdigit,
slicing, join) are re-implemented over `List Char` so that theorems can be
settled by computation and induction.
-/

/-- Model of Python `str.strip` helpers: drop leading whitespace chars. -/
def dropWsL (cs : List Char) : List Char := cs.dropWhile fun c => c.isWhitespace

/-- Model of Python `str.strip()`. -/
def pyStrip (s : String) : String := ⟨(dropWsL ((dropWsL s.data).reverse)).reverse⟩

/-- Model of Python `str.rstrip()`. -/
def pyRstrip (s : String) : String := ⟨(dropWsL s.data.reverse).reverse⟩

/-- Model of Python `str.lstrip()`. -/
def pyLstrip (s : String) : String := ⟨dropWsL s.data⟩

/-- Model of Python slicing `s[:n]`. -/
def pyTake (n : Nat) (s : String) : String := ⟨s.data.take n⟩

/-- Model of Python `str.lower()`. -/
def pyLower (s : String) : String := ⟨s.data.map Char.toLower⟩

/-- Model of Python `str.isdigit()`: nonempty and all digits. -/
def pyIsdigit (s : String) : Bool := !s.data.isEmpty && s.data.all Char.isDigit

/-- Char-list comparison: first list is an initial segment of the second. -/
def charsLe : List Char → List Char → Bool
  | [], _ => true
  | _ :: _, [] => false
  | a :: as, b :: bs => a == b && charsLe as bs

/-- Model of Python `s.startswith(p)` (arguments: pattern, then string). -/
def pyStartsWith (p s : String) : Bool := charsLe p.data s.data

/-- Split a char list on a separator char, like Python `str.split(sep)`. -/
def splitChar (sep : Char) : List Char → List (List Char)
  | [] => [[]]
  | c :: cs =>
    let rest := splitChar sep cs
    if c == sep then [] :: rest
    else
      match rest with
      | [] => [[c]]
      | p :: ps => (c :: p) :: ps

/-- Model of Python `str.splitlines()` (newline-separated; trailing empties
are filtered away by every caller, which makes this split equivalent). -/
def pySplitlines (s : String) : List String := (splitChar '\n' s.data).map fun cs => ⟨cs⟩

/-- Model of Python `sep.join(l)`. -/
def pyJoin (sep : String) : List String → String
  | [] => ""
  | [x] => x
  | x :: xs => x ++ sep ++ pyJoin sep xs

/-- `[ln.strip() for ln in text.splitlines() if ln.strip()]`: the stripped
non-blank lines of a text, in order. -/
def stripNonblank (t : String) : List String :=
  ((pySplitlines t).map pyStrip).filter fun ln => decide (ln ≠ "")

/-- A JSON scalar as the script sees it: its Python truthiness and the
rational value that `float()` yields on it. -/
structure JsonVal where
  truthy : Bool
  asFloat : ℚ
deriving DecidableEq

/-- Outcome of one HTTP request in the script: an exception raised during the
request or while parsing the body, or a response with a status code and an
already-decoded body. -/
inductive HttpOutcome (α : Type)
  | exn : HttpOutcome α
  | resp (status : Nat) (body : α) : HttpOutcome α
deriving DecidableEq

/-- `float(a or 0)` on an optional JSON scalar `a`. -/
def pyFloatOr (a : Option JsonVal) : ℚ :=
  match a with
  | none => 0
  | some v => if v.truthy then v.asFloat else 0

/-- `float(a or b or 0)` on optional JSON scalars. -/
def pyFloatOr2 (a b : Option JsonVal) : ℚ :=
  match a with
  | none => pyFloatOr b
  | some v => if v.truthy then v.asFloat else pyFloatOr b

/-- Body of the 24hr-ticker endpoint response, field per field. -/
structure TickerPayload where
  lastPrice : Option JsonVal
  last_price : Option JsonVal
  volume : Option JsonVal
  highPrice : Option JsonVal
  lowPrice : Option JsonVal
  priceChangePercent : Option JsonVal
deriving DecidableEq

/-- The dict `fetch_ticker` builds on success. -/
structure Ticker where
  price : ℚ
  volume : ℚ
  high : ℚ
  low : ℚ
  pct : ℚ
deriving DecidableEq

/-- What a ticker slot of `asyncio.gather` can hold in `periodic_task`:
a returned exception, `None`, or the ticker dict. -/
inductive TickRes
  | exn
  | noneRes
  | ok (t : Ticker)
deriving DecidableEq

/-- `fetch_ticker`: non-200 status raises (and the exception is returned);
any request/parse exception is returned; otherwise the parsed dict. -/
def fetch_ticker (r : HttpOutcome TickerPayload) : TickRes :=
  match r with
  | .exn => .exn
  | .resp status d =>
    if status ≠ 200 then .exn
    else .ok
      { price := pyFloatOr2 d.lastPrice d.last_price
        volume := pyFloatOr d.volume
        high := pyFloatOr d.highPrice
        low := pyFloatOr d.lowPrice
        pct := pyFloatOr d.priceChangePercent }

/-- One candle dict as parsed by `fetch_candles` (keys open/high/low/close/volume;
`open` is a Lean keyword, hence the abbreviated field names). -/
structure Candle where
  op : ℚ
  hi : ℚ
  lo : ℚ
  cl : ℚ
  vol : ℚ
deriving DecidableEq

/-- What a candles slot of the gather can hold. -/
inductive CandRes
  | exn
  | noneRes
  | ok (cs : List Candle)
deriving DecidableEq

/-- `fetch_candles`: non-200 raises (returned exception), exceptions returned,
otherwise the parsed candle list. -/
def fetch_candles (r : HttpOutcome (List Candle)) : CandRes :=
  match r with
  | .exn => .exn
  | .resp status cs => if status ≠ 200 then .exn else .ok cs

/-- Body of the open-interest endpoint response. -/
structure OiPayload where
  openInterest : Option JsonVal
deriving DecidableEq

/-- `fetch_oi`: non-200 returns `None`; any exception returns `None`;
otherwise `float(d.get("openInterest") or 0)`. -/
def fetch_oi (r : HttpOutcome OiPayload) : Option ℚ :=
  match r with
  | .exn => none
  | .resp status d => if status ≠ 200 then none else some (pyFloatOr d.openInterest)

/-- What an open-interest slot of the gather can hold: an exception object or
the value returned by `fetch_oi`. -/
inductive OiRes
  | exn
  | val (v : Option ℚ)
deriving DecidableEq

/-- The fixed symbol list `SYMBOLS` of the script. -/
def SYMBOLS : List String := ["BTCUSDT", "ETHUSDT", "SOLUSDT"]

/-- One `market_map` entry: the placeholder dict
`{"price": None, "volume": None, "oi": None}` with fields filled in. -/
structure MarketEntry where
  price : Option ℚ
  volume : Option ℚ
  oi : Option ℚ
deriving DecidableEq

abbrev MarketMap := List (String × MarketEntry)
abbrev CandleMap := List (String × List Candle)

/-- The placeholder entry created at the top of each cycle. -/
def initEntry : MarketEntry := ⟨none, none, none⟩

/-- The ticker branch of the aggregation loop in `periodic_task`. -/
def applyTicker (e : MarketEntry) : TickRes → MarketEntry
  | .exn => e
  | .noneRes => e
  | .ok t => { e with price := some t.price, volume := some t.volume }

/-- The open-interest branch of the aggregation loop in `periodic_task`. -/
def applyOi (e : MarketEntry) : OiRes → MarketEntry
  | .exn => e
  | .val v => { e with oi := v }

/-- The candles branch of the aggregation loop in `periodic_task`. -/
def candlesOf : CandRes → List Candle
  | .exn => []
  | .noneRes => []
  | .ok cs => cs

/-- The three gather results of one symbol in one cycle. -/
structure FetchTriple where
  tick : TickRes
  cand : CandRes
  oi : OiRes
deriving DecidableEq

/-- The `market_map` entry a cycle records for one symbol. -/
def buildEntry (r : FetchTriple) : MarketEntry := applyOi (applyTicker initEntry r.tick) r.oi

/-- The `market_map` built by one cycle of `periodic_task`. -/
def buildMarketMap (res : String → FetchTriple) : MarketMap :=
  SYMBOLS.map fun s => (s, buildEntry (res s))

/-- The `candle_map` built by one cycle of `periodic_task`. -/
def buildCandleMap (res : String → FetchTriple) : CandleMap :=
  SYMBOLS.map fun s => (s, candlesOf (res s).cand)

/-- Rendering of a Python float, abstracted: the script only interpolates
prices into f-strings, it never computes with the digits. -/
def pyFloatRepr (q : ℚ) : String := toString q

/-- f-string interpolation of a value that may be Python `None`. -/
def optRepr : Option ℚ → String
  | none => "None"
  | some q => pyFloatRepr q

/-- One spot-summary line of the analysis prompt in `openai_analyze`. -/
def spotLine (mm : MarketMap) (s : String) : String :=
  match mm.lookup s with
  | none => s ++ ": DATA_MISSING"
  | some d =>
    match d.price with
    | none => s ++ ": DATA_MISSING"
    | some p => s ++ ": price=" ++ pyFloatRepr p ++ " vol24h=" ++ optRepr d.volume
        ++ " OI=" ++ optRepr d.oi

/-- `candles[-10:]`. -/
def last10 (l : List Candle) : List Candle := l.drop (l.length - 10)

/-- The OHLC text of one candle in the prompt. -/
def candleText (c : Candle) : String :=
  "[" ++ pyFloatRepr c.op ++ "," ++ pyFloatRepr c.hi ++ "," ++ pyFloatRepr c.lo
    ++ "," ++ pyFloatRepr c.cl ++ "]"

/-- One per-symbol candle line of the analysis prompt in `openai_analyze`. -/
def candleLine (cm : CandleMap) (s : String) : String :=
  if ((cm.lookup s).getD []).isEmpty then s ++ " last 10 candles (OHLC): DATA_MISSING"
  else s ++ " last 10 candles (OHLC): "
    ++ pyJoin ", " ((last10 ((cm.lookup s).getD [])).map candleText)

/-- The fixed leading lines of the prompt plus the spot-summary block. -/
def promptPrelude (mm : MarketMap) : List String :=
  ["You are a concise crypto technical analyst.",
   "Given the following spot summary and recent candlestick OHLC data for BTCUSDT, ETHUSDT, and SOLUSDT,",
   "identify common chart patterns (e.g., flag, triangle, head & shoulders, double top/bottom), state bias (bullish/bearish/neutral),",
   "and suggest possible buy/sell signals in one short paragraph.",
   "",
   "Spot summary (DATA_MISSING means that data fetch failed):",
   pyJoin "\n" (SYMBOLS.map (spotLine mm)),
   ""]

/-- The `prompt_parts` list built in `openai_analyze`. -/
def promptParts (mm : MarketMap) (cm : CandleMap) : List String :=
  promptPrelude mm ++ SYMBOLS.map (candleLine cm)

/-- The prompt string sent to the completion API. -/
def analyzePrompt (mm : MarketMap) (cm : CandleMap) : String :=
  pyJoin "\n" (promptParts mm cm)

/-- Outcome of the external completion call: an exception anywhere in the
call or in reading `resp.choices[0].message.content`, or the response text. -/
inductive ServiceOutcome
  | exn
  | ok (text : String)
deriving DecidableEq

/-- The response post-processing inside `openai_analyze`: strip the text,
and when it has more than 6 non-blank lines keep only the first 6. -/
def openai_post (raw : String) : String :=
  let text := pyStrip raw
  let lines_out := stripNonblank text
  if 6 < lines_out.length then pyJoin "\n" (lines_out.take 6) else text

/-- `openai_analyze`: `None` without a client; the completion call is applied
to the built prompt; any exception yields `None`; otherwise the
post-processed text. -/
def openai_analyze (hasClient : Bool) (mm : MarketMap) (cm : CandleMap)
    (svc : String → ServiceOutcome) : Option String :=
  if !hasClient then none
  else
    match svc (analyzePrompt mm cm) with
    | .exn => none
    | .ok raw => some (openai_post raw)

/-- The dump-line test of `_clean_analysis_text`:
`ln.lower().startswith("last 10 candles") or ln[:2].lstrip().isdigit()`. -/
def isCandleDump (ln : String) : Bool :=
  pyStartsWith "last 10 candles" (pyLower ln) || pyIsdigit (pyLstrip (pyTake 2 ln))

/-- The dump filter of `_clean_analysis_text`, with its fallback: when every
line is filtered away, the unfiltered lines are restored. -/
def dumpFiltered (lines : List String) : List String :=
  if (lines.filter fun ln => !(isCandleDump ln)).isEmpty then lines
  else lines.filter fun ln => !(isCandleDump ln)

/-- The per-line truncation of `_clean_analysis_text`:
lines over 220 chars become their right-stripped 200-char prefix plus an
ellipsis char. -/
def truncLine (ln : String) : String :=
  if 220 < ln.length then pyRstrip (pyTake 200 ln) ++ "…" else ln

/-- The accumulation loop of `_clean_analysis_text`: truncate each line and
stop once `max_lines` lines have been kept (one line is kept even when
`max_lines = 0`, exactly as the Python loop breaks only after appending). -/
def shortLoop (maxLines : Nat) : List String → List String
  | [] => []
  | ln :: rest =>
    if maxLines ≤ 1 then [truncLine ln]
    else truncLine ln :: shortLoop (maxLines - 1) rest

/-- The list of lines `_clean_analysis_text` keeps. -/
def cleanLines (text : Option String) (maxLines : Nat) : List String :=
  match text with
  | none => []
  | some t =>
    if t = "" then []
    else shortLoop maxLines (dumpFiltered (stripNonblank t))

/-- `_clean_analysis_text` (`None` and `""` are both falsy and yield `""`). -/
def clean_analysis_text (text : Option String) (maxLines : Nat) : String :=
  pyJoin "\n" (cleanLines text maxLines)

/-- `_recent_message_sent`: the cooldown marker file is modelled as
`none` (absent), `some none` (present but unreadable or unparseable, which
raises and is swallowed), or `some (some ts)` (parsed timestamp). -/
def recent_message_sent (msg_cooldown : Int) (marker : Option (Option Int)) (now : Int) : Bool :=
  match marker with
  | none => false
  | some none => false
  | some (some ts) => decide (now - ts < msg_cooldown)

/-- One header line of the snapshot message in `send_snapshot_message`. -/
def headerLine (mm : MarketMap) (s : String) : String :=
  match mm.lookup s with
  | none => "*" ++ s ++ "*: DATA_MISSING"
  | some d =>
    match d.price with
    | none => "*" ++ s ++ "*: DATA_MISSING"
    | some p => "*" ++ s ++ "*: " ++ pyFloatRepr p ++ " (24hVol=" ++ optRepr d.volume
        ++ ", OI=" ++ optRepr d.oi ++ ")"

/-- The snapshot message text: header line with the UTC time, one line per
symbol, then the cleaned analysis section when it is non-empty. -/
def buildSnapshotMsg (timeStr : String) (mm : MarketMap) (analysis_raw : Option String) : String :=
  if clean_analysis_text analysis_raw 5 = "" then
    "*Snapshot (UTC " ++ timeStr ++ ")*\n" ++ pyJoin "\n" (SYMBOLS.map (headerLine mm))
  else
    "*Snapshot (UTC " ++ timeStr ++ ")*\n" ++ pyJoin "\n" (SYMBOLS.map (headerLine mm))
      ++ "\n\n🧠 Analysis:\n" ++ clean_analysis_text analysis_raw 5

/-- Result of one `send_snapshot_message` call: its return value, the
cooldown marker afterwards, how many Telegram delivery calls were made, and
the message text handed to the delivery call (if any). -/
structure SnapResult where
  sent : Bool
  marker : Option (Option Int)
  deliveryCalls : Nat
  message : Option String
deriving DecidableEq

/-- `send_snapshot_message`: suppressed entirely when the cooldown gate
fires; otherwise one delivery call is made (`sendOk` is its outcome) and the
marker is rewritten to the current time only after a successful send
(`writeOk` models the marker file write, which can itself fail). -/
def send_snapshot_message (msg_cooldown : Int) (marker : Option (Option Int)) (now : Int)
    (sendOk writeOk : Bool) (mm : MarketMap) (candle_map : CandleMap)
    (analysis_raw : Option String) (timeStr : String) : SnapResult :=
  if recent_message_sent msg_cooldown marker now then
    ⟨false, marker, 0, none⟩
  else
    let msg := buildSnapshotMsg timeStr mm analysis_raw
    if sendOk then ⟨true, if writeOk then some (some now) else marker, 1, some msg⟩
    else ⟨false, marker, 1, some msg⟩

/-- Result of `send_startup_once`: number of announcement delivery calls made
and the startup flag afterwards (`some t` = flag file present, written at `t`). -/
structure StartupResult where
  sends : Nat
  flag : Option Int
deriving DecidableEq

/-- `send_startup_once`: skip silently when the flag file exists; otherwise
send once and write the flag only on confirmed success (the write itself may
fail, leaving the flag absent). -/
def send_startup_once (flag : Option Int) (now : Int) (sendOk writeOk : Bool) : StartupResult :=
  match flag with
  | some t => ⟨0, some t⟩
  | none =>
    if sendOk then ⟨1, if writeOk then some now else none⟩
    else ⟨1, none⟩

/-- Pointwise replacement of the open-interest gather slot of symbol `X`. -/
def setOi (res : String → FetchTriple) (X : String) (o : OiRes) : String → FetchTriple :=
  fun s => if s = X then { res s with oi := o } else res s

/-- Substring containment on the character lists of two strings. -/
def strContains (a b : String) : Prop :=
  ∃ u v : List Char, b.data = u ++ (a.data ++ v)

/-! ### Helper lemmas -/

theorem str_data_append (a b : String) : (a ++ b).data = a.data ++ b.data := rfl

theorem str_ne_empty_of_data {s : String} (h : s.data ≠ []) : s ≠ "" :=
  fun he => h (by rw [he])

theorem strContains_self (a : String) : strContains a a := by
  refine ⟨[], [], ?_⟩
  simp

theorem strContains_appL (a l r : String) (h : strContains a l) : strContains a (l ++ r) := by
  obtain ⟨u, v, hu⟩ := h
  exact ⟨u, v ++ r.data, by rw [str_data_append, hu]; simp⟩

theorem strContains_appR (a l r : String) (h : strContains a r) : strContains a (l ++ r) := by
  obtain ⟨u, v, hu⟩ := h
  exact ⟨l.data ++ u, v, by rw [str_data_append, hu]; simp⟩

theorem strContains_pyJoin (sep a : String) (l : List String) (h : a ∈ l) :
    strContains a (pyJoin sep l) := by
  induction l with
  | nil => cases h
  | cons x xs ih =>
    rcases List.mem_cons.mp h with rfl | h2
    · cases xs with
      | nil => exact strContains_self a
      | cons y ys =>
        exact strContains_appL a (a ++ sep) (pyJoin sep (y :: ys))
          (strContains_appL a a sep (strContains_self a))
    · cases xs with
      | nil => cases h2
      | cons y ys =>
        exact strContains_appR a (x ++ sep) (pyJoin sep (y :: ys)) (ih h2)

theorem applyOi_price (e : MarketEntry) (o : OiRes) : (applyOi e o).price = e.price := by
  cases o <;> rfl

theorem applyOi_volume (e : MarketEntry) (o : OiRes) : (applyOi e o).volume = e.volume := by
  cases o <;> rfl

theorem buildEntry_price (r : FetchTriple) :
    (buildEntry r).price = (applyTicker initEntry r.tick).price := by
  unfold buildEntry; exact applyOi_price _ _

theorem buildEntry_volume (r : FetchTriple) :
    (buildEntry r).volume = (applyTicker initEntry r.tick).volume := by
  unfold buildEntry; exact applyOi_volume _ _

theorem mem_SYMBOLS (s : String) (hs : s ∈ SYMBOLS) :
    s = "BTCUSDT" ∨ s = "ETHUSDT" ∨ s = "SOLUSDT" := by
  simpa [SYMBOLS] using hs

theorem buildMarketMap_lookup (res : String → FetchTriple) (s : String) (hs : s ∈ SYMBOLS) :
    (buildMarketMap res).lookup s = some (buildEntry (res s)) := by
  rcases mem_SYMBOLS s hs with rfl | rfl | rfl <;> rfl

theorem headerLine_missing (mm : MarketMap) (s : String) (e : MarketEntry)
    (hl : mm.lookup s = some e) (hp : e.price = none) :
    headerLine mm s = "*" ++ s ++ "*: DATA_MISSING" := by
  obtain ⟨p, v, o⟩ := e
  cases hp
  simp [headerLine, hl]

theorem strContains_snapshot (timeStr : String) (mm : MarketMap) (analysis : Option String)
    (a : String) (h : strContains a (pyJoin "\n" (SYMBOLS.map (headerLine mm)))) :
    strContains a (buildSnapshotMsg timeStr mm analysis) := by
  unfold buildSnapshotMsg
  by_cases hc : clean_analysis_text analysis 5 = ""
  · rw [if_pos hc]
    exact strContains_appR a _ _ h
  · rw [if_neg hc]
    exact strContains_appL a _ _ (strContains_appL a _ _ (strContains_appR a _ _ h))

theorem mem_stripNonblank_ne (t ln : String) (h : ln ∈ stripNonblank t) : ln ≠ "" := by
  unfold stripNonblank at h
  have := List.of_mem_filter h
  exact of_decide_eq_true this

theorem truncLine_ne (x : String) (hx : x ≠ "") : truncLine x ≠ "" := by
  unfold truncLine
  split
  · apply str_ne_empty_of_data
    rw [str_data_append]
    intro hemp
    have h2 := (List.append_eq_nil.mp hemp).2
    exact absurd h2 (by decide)
  · exact hx

theorem length_dropWsL_le (cs : List Char) : (dropWsL cs).length ≤ cs.length := by
  unfold dropWsL
  induction cs with
  | nil => simp
  | cons c rest ih =>
    by_cases h : c.isWhitespace = true <;> simp [List.dropWhile_cons, h] <;> omega

theorem truncLine_length (x : String) : (truncLine x).length ≤ 220 := by
  unfold truncLine
  split
  · have h1 : (pyRstrip (pyTake 200 x)).length ≤ 200 := by
      show (dropWsL (pyTake 200 x).data.reverse).reverse.length ≤ 200
      calc (dropWsL (pyTake 200 x).data.reverse).reverse.length
          = (dropWsL (pyTake 200 x).data.reverse).length := List.length_reverse _
        _ ≤ (pyTake 200 x).data.reverse.length := length_dropWsL_le _
        _ = (pyTake 200 x).data.length := List.length_reverse _
        _ = (x.data.take 200).length := rfl
        _ ≤ 200 := by rw [List.length_take]; exact min_le_left _ _
    have h2 : (pyRstrip (pyTake 200 x) ++ "…").length = (pyRstrip (pyTake 200 x)).length + 1 := by
      show ((pyRstrip (pyTake 200 x) ++ "…").data).length = _
      rw [str_data_append, List.length_append]
      rfl
    omega
  · omega

theorem shortLoop_mem (n : Nat) (l : List String) (ln : String) (h : ln ∈ shortLoop n l) :
    ∃ x ∈ l, ln = truncLine x := by
  induction l generalizing n with
  | nil => cases h
  | cons x xs ih =>
    unfold shortLoop at h
    split at h
    · rcases List.mem_singleton.mp h with rfl
      exact ⟨x, List.mem_cons_self x xs, rfl⟩
    · rcases List.mem_cons.mp h with rfl | h2
      · exact ⟨x, List.mem_cons_self x xs, rfl⟩
      · obtain ⟨y, hy, he⟩ := ih (n - 1) h2
        exact ⟨y, List.mem_cons_of_mem x hy, he⟩

theorem shortLoop_length (n : Nat) (l : List String) (hn : 1 ≤ n) :
    (shortLoop n l).length ≤ n := by
  induction l generalizing n with
  | nil => simp [shortLoop]
  | cons x xs ih =>
    unfold shortLoop
    split
    · simpa using hn
    · rename_i hgt
      have h1 : 1 ≤ n - 1 := by omega
      have := ih (n - 1) h1
      simp only [List.length_cons]
      omega

theorem dumpFiltered_sub (l : List String) (x : String) (h : x ∈ dumpFiltered l) : x ∈ l := by
  unfold dumpFiltered at h
  split at h
  · exact h
  · exact List.mem_of_mem_filter h

theorem cleanLines_eq (t : String) (n : Nat) (ht : t ≠ "") :
    cleanLines (some t) n = shortLoop n (dumpFiltered (stripNonblank t)) := by
  simp [cleanLines, ht]

/-! ### Claim theorems -/

/-- C1: two snapshot-notification attempts separated by less than the
cooldown (counted from the timestamp recorded in the marker): after a first
successful delivery records `t1`, a second attempt at `t2` with
`t2 - t1 < msg_cooldown` performs no delivery call and leaves the marker
unchanged; and a failed delivery never changes the marker, which is set to
the current time only on confirmed success. -/
theorem snapshot_cooldown_gate (msg_cooldown : Int) (marker : Option (Option Int)) (t1 t2 : Int)
    (mm1 mm2 : MarketMap) (cm1 cm2 : CandleMap) (a1 a2 : Option String) (s1 s2 : String)
    (ok2 wk2 : Bool)
    (h1 : (send_snapshot_message msg_cooldown marker t1 true true mm1 cm1 a1 s1).sent = true)
    (h2 : t2 - t1 < msg_cooldown) :
    (send_snapshot_message msg_cooldown marker t1 true true mm1 cm1 a1 s1).marker = some (some t1) ∧
    (send_snapshot_message msg_cooldown (some (some t1)) t2 ok2 wk2 mm2 cm2 a2 s2).deliveryCalls = 0 ∧
    (send_snapshot_message msg_cooldown (some (some t1)) t2 ok2 wk2 mm2 cm2 a2 s2).marker = some (some t1) ∧
    (∀ (cd : Int) (m : Option (Option Int)) (n : Int) (wk : Bool) (mm : MarketMap)
       (cm : CandleMap) (a : Option String) (ts : String),
      (send_snapshot_message cd m n false wk mm cm a ts).marker = m) := by
  have hr : recent_message_sent msg_cooldown marker t1 = false := by
    by_contra hc
    rw [Bool.not_eq_false] at hc
    simp [send_snapshot_message, hc] at h1
  have hr2 : recent_message_sent msg_cooldown (some (some t1)) t2 = true := by
    simp [recent_message_sent, h2]
  refine ⟨?_, ?_, ?_, ?_⟩
  · simp [send_snapshot_message, hr]
  · simp [send_snapshot_message, hr2]
  · simp [send_snapshot_message, hr2]
  · intro cd m n wk mm cm a ts
    by_cases h : recent_message_sent cd m n <;> simp [send_snapshot_message, h]

theorem snapshot_cooldown_gate_witness :
    (send_snapshot_message 70 none 0 true true [] [] none "00:00").marker = some (some 0) ∧
    (send_snapshot_message 70 (some (some 0)) 10 true true [] [] none "00:00").deliveryCalls = 0 ∧
    (send_snapshot_message 70 (some (some 0)) 10 true true [] [] none "00:00").marker = some (some 0) ∧
    (∀ (cd : Int) (m : Option (Option Int)) (n : Int) (wk : Bool) (mm : MarketMap)
       (cm : CandleMap) (a : Option String) (ts : String),
      (send_snapshot_message cd m n false wk mm cm a ts).marker = m) :=
  snapshot_cooldown_gate 70 none 0 10 [] [] [] [] none none "00:00" "00:00" true true
    (by decide) (by decide)

/-- C7: while the startup flag persists at most one startup announcement is
sent — a start that finds the flag present makes zero delivery calls and
leaves the flag alone; the flag is written only after a confirmed successful
send; after a successful first start, a second start sends nothing. -/
theorem startup_once (flag : Option Int) (now now2 : Int) (ok wk ok2 wk2 : Bool) :
    (send_startup_once flag now ok wk).sends ≤ 1 ∧
    (flag.isSome = true → send_startup_once flag now ok wk = ⟨0, flag⟩) ∧
    (ok = false → (send_startup_once flag now ok wk).flag = flag) ∧
    ((send_startup_once flag now ok wk).flag ≠ flag → ok = true) ∧
    (flag = none → ok = true → wk = true →
      (send_startup_once (send_startup_once flag now ok wk).flag now2 ok2 wk2).sends = 0) := by
  rcases flag with _ | t <;> cases ok <;> cases wk <;>
    simp [send_startup_once]

theorem startup_once_witness :
    (send_startup_once none 5 true true).sends ≤ 1 ∧
    (send_startup_once (send_startup_once none 5 true true).flag 9 true true).sends = 0 := by
  refine ⟨(startup_once none 5 9 true true true true).1, ?_⟩
  exact (startup_once none 5 9 true true true true).2.2.2.2 rfl rfl rfl

/-- C9: `fetch_oi` is total at its interface — every non-200 status and
every exception yields `None`, never an exception value, so the exception
branch `periodic_task` keeps for open-interest results is unreachable and a
failed fetch is indistinguishable from a legitimately absent value. -/
theorem fetch_oi_total :
    (∀ (d : OiPayload) (st : Nat), st ≠ 200 → fetch_oi (HttpOutcome.resp st d) = none) ∧
    fetch_oi (HttpOutcome.exn : HttpOutcome OiPayload) = none ∧
    (∀ r : HttpOutcome OiPayload, OiRes.val (fetch_oi r) ≠ OiRes.exn) ∧
    (∀ (e : MarketEntry) (r : HttpOutcome OiPayload),
      applyOi e (OiRes.val (fetch_oi r)) = { e with oi := fetch_oi r }) ∧
    (∀ (d : OiPayload) (st : Nat), st ≠ 200 →
      fetch_oi (HttpOutcome.resp st d) = fetch_oi (HttpOutcome.exn : HttpOutcome OiPayload)) := by
  refine ⟨?_, rfl, ?_, ?_, ?_⟩
  · intro d st hst
    simp [fetch_oi, hst]
  · intro r
    simp
  · intro e r
    rfl
  · intro d st hst
    simp [fetch_oi, hst]

theorem fetch_oi_total_witness :
    fetch_oi (HttpOutcome.resp 404 (OiPayload.mk none)) = none :=
  fetch_oi_total.1 (OiPayload.mk none) 404 (by decide)

/-- C10: the cooldown-marker read fails open — an absent marker file and a
present-but-unreadable-or-unparseable one both make `_recent_message_sent`
return `False`, so such a marker never suppresses a notification: the
delivery call is still made. -/
theorem cooldown_fails_open (msg_cooldown now : Int) :
    recent_message_sent msg_cooldown none now = false ∧
    recent_message_sent msg_cooldown (some none) now = false ∧
    (∀ (ok wk : Bool) (mm : MarketMap) (cm : CandleMap) (a : Option String) (ts : String),
      (send_snapshot_message msg_cooldown none now ok wk mm cm a ts).deliveryCalls = 1) ∧
    (∀ (ok wk : Bool) (mm : MarketMap) (cm : CandleMap) (a : Option String) (ts : String),
      (send_snapshot_message msg_cooldown (some none) now ok wk mm cm a ts).deliveryCalls = 1) := by
  refine ⟨rfl, rfl, ?_, ?_⟩ <;>
    · intro ok wk mm cm a ts
      cases ok <;> simp [send_snapshot_message, recent_message_sent]

theorem cooldown_fails_open_witness :
    (send_snapshot_message 70 none 0 false true [] [] none "00:00").deliveryCalls = 1 :=
  (cooldown_fails_open 70 0).2.2.1 false true [] [] none "00:00"

/-- C2: an instrument whose ticker fetch failed (returned exception) or
returned nothing still gets a frame entry with `price = None`, its rendered
header line is the DATA_MISSING line, and that line occurs inside the full
rendered snapshot message. -/
theorem missing_ticker_kept (res : String → FetchTriple) (s : String)
    (analysis : Option String) (timeStr : String)
    (hs : s ∈ SYMBOLS)
    (ht : (res s).tick = TickRes.exn ∨ (res s).tick = TickRes.noneRes) :
    (buildMarketMap res).lookup s = some (buildEntry (res s)) ∧
    (buildEntry (res s)).price = none ∧
    headerLine (buildMarketMap res) s = "*" ++ s ++ "*: DATA_MISSING" ∧
    strContains ("*" ++ s ++ "*: DATA_MISSING")
      (buildSnapshotMsg timeStr (buildMarketMap res) analysis) := by
  have hlookup := buildMarketMap_lookup res s hs
  have hprice : (buildEntry (res s)).price = none := by
    rw [buildEntry_price]
    rcases ht with h | h <;> rw [h] <;> rfl
  have hline : headerLine (buildMarketMap res) s = "*" ++ s ++ "*: DATA_MISSING" :=
    headerLine_missing _ _ _ hlookup hprice
  refine ⟨hlookup, hprice, hline, ?_⟩
  apply strContains_snapshot
  rw [← hline]
  exact strContains_pyJoin "\n" _ _ (List.mem_map_of_mem (headerLine (buildMarketMap res)) hs)

theorem missing_ticker_kept_witness :
    (buildMarketMap fun _ => ⟨TickRes.exn, CandRes.exn, OiRes.val none⟩).lookup "ETHUSDT"
      = some (buildEntry ⟨TickRes.exn, CandRes.exn, OiRes.val none⟩) ∧
    (buildEntry (⟨TickRes.exn, CandRes.exn, OiRes.val none⟩ : FetchTriple)).price = none ∧
    headerLine (buildMarketMap fun _ => ⟨TickRes.exn, CandRes.exn, OiRes.val none⟩) "ETHUSDT"
      = "*" ++ "ETHUSDT" ++ "*: DATA_MISSING" ∧
    strContains ("*" ++ "ETHUSDT" ++ "*: DATA_MISSING")
      (buildSnapshotMsg "12:00"
        (buildMarketMap fun _ => ⟨TickRes.exn, CandRes.exn, OiRes.val none⟩) none) :=
  missing_ticker_kept (fun _ => ⟨TickRes.exn, CandRes.exn, OiRes.val none⟩) "ETHUSDT"
    none "12:00" (by decide) (Or.inl rfl)

/-- C3: a successful ticker fetch whose payload carries a truthy last-price
field stores exactly that numeric value as the frame's price — no rounding
between parsing and the frame. -/
theorem ticker_price_exact (res : String → FetchTriple) (s : String)
    (d : TickerPayload) (jv : JsonVal)
    (hs : s ∈ SYMBOLS)
    (ht : (res s).tick = fetch_ticker (HttpOutcome.resp 200 d))
    (hlp : d.lastPrice = some jv) (htr : jv.truthy = true) :
    (buildMarketMap res).lookup s = some (buildEntry (res s)) ∧
    (buildEntry (res s)).price = some jv.asFloat := by
  refine ⟨buildMarketMap_lookup res s hs, ?_⟩
  rw [buildEntry_price, ht]
  simp [fetch_ticker, applyTicker, pyFloatOr2, hlp, htr]

theorem ticker_price_exact_witness :
    (buildEntry (⟨fetch_ticker (HttpOutcome.resp 200
        ⟨some ⟨true, 50000⟩, none, none, none, none, none⟩),
      CandRes.exn, OiRes.val none⟩ : FetchTriple)).price = some ((50000 : ℚ)) :=
  (ticker_price_exact
    (fun _ => ⟨fetch_ticker (HttpOutcome.resp 200
        ⟨some ⟨true, 50000⟩, none, none, none, none, none⟩), CandRes.exn, OiRes.val none⟩)
    "BTCUSDT" ⟨some ⟨true, 50000⟩, none, none, none, none, none⟩ ⟨true, 50000⟩
    (by decide) rfl rfl rfl).2

/-- C4: replacing only the open-interest gather result of one symbol `X`
(failure or success alike) changes nothing else: the candle map is
identical, every other symbol's gather triple and frame entry are identical,
and `X`'s own price and volume fields are identical. -/
theorem oi_failure_isolated (res : String → FetchTriple) (X : String) (o o' : OiRes) :
    buildCandleMap (setOi res X o) = buildCandleMap (setOi res X o') ∧
    (∀ s : String, s ≠ X → setOi res X o s = setOi res X o' s) ∧
    (∀ s : String, s ≠ X → buildEntry (setOi res X o s) = buildEntry (setOi res X o' s)) ∧
    (∀ s : String,
      (buildEntry (setOi res X o s)).price = (buildEntry (setOi res X o' s)).price ∧
      (buildEntry (setOi res X o s)).volume = (buildEntry (setOi res X o' s)).volume) := by
  have hne : ∀ s, s ≠ X → setOi res X o s = setOi res X o' s := by
    intro s h
    simp [setOi, h]
  have htick : ∀ s, (setOi res X o s).tick = (setOi res X o' s).tick := by
    intro s
    by_cases h : s = X <;> simp [setOi, h]
  have hcand : ∀ s, (setOi res X o s).cand = (setOi res X o' s).cand := by
    intro s
    by_cases h : s = X <;> simp [setOi, h]
  refine ⟨?_, hne, ?_, ?_⟩
  · unfold buildCandleMap
    apply List.map_congr_left
    intro s _
    rw [hcand s]
  · intro s h
    rw [hne s h]
  · intro s
    constructor
    · rw [buildEntry_price, buildEntry_price, htick s]
    · rw [buildEntry_volume, buildEntry_volume, htick s]

theorem oi_failure_isolated_witness :
    buildEntry (setOi (fun _ => ⟨TickRes.ok ⟨1, 2, 3, 4, 5⟩, CandRes.ok [], OiRes.val none⟩)
        "BTCUSDT" (OiRes.val none) "ETHUSDT")
      = buildEntry (setOi (fun _ => ⟨TickRes.ok ⟨1, 2, 3, 4, 5⟩, CandRes.ok [], OiRes.val none⟩)
        "BTCUSDT" (OiRes.val (some 9)) "ETHUSDT") :=
  (oi_failure_isolated (fun _ => ⟨TickRes.ok ⟨1, 2, 3, 4, 5⟩, CandRes.ok [], OiRes.val none⟩)
    "BTCUSDT" (OiRes.val none) (OiRes.val (some 9))).2.2.1 "ETHUSDT" (by decide)

/-- C5: when the external analysis call raises, `openai_analyze` returns
`None` rather than propagating, and the snapshot is still built and handed
to exactly one delivery call, consisting of the header and the per-symbol
lines with no analysis section appended. -/
theorem analysis_failure_degrades (mm : MarketMap) (cm : CandleMap)
    (svc : String → ServiceOutcome) (msg_cooldown : Int) (marker : Option (Option Int))
    (now : Int) (ok wk : Bool) (timeStr : String)
    (hsvc : svc (analyzePrompt mm cm) = ServiceOutcome.exn)
    (hcool : recent_message_sent msg_cooldown marker now = false) :
    openai_analyze true mm cm svc = none ∧
    (send_snapshot_message msg_cooldown marker now ok wk mm cm
        (openai_analyze true mm cm svc) timeStr).deliveryCalls = 1 ∧
    (send_snapshot_message msg_cooldown marker now ok wk mm cm
        (openai_analyze true mm cm svc) timeStr).message =
      some ("*Snapshot (UTC " ++ timeStr ++ ")*\n"
        ++ pyJoin "\n" (SYMBOLS.map (headerLine mm))) := by
  have hana : openai_analyze true mm cm svc = none := by
    simp [openai_analyze, hsvc]
  have hmsg : buildSnapshotMsg timeStr mm (none : Option String) =
      "*Snapshot (UTC " ++ timeStr ++ ")*\n" ++ pyJoin "\n" (SYMBOLS.map (headerLine mm)) := by
    unfold buildSnapshotMsg
    have hcl : clean_analysis_text (none : Option String) 5 = "" := rfl
    rw [if_pos hcl]
  rw [hana]
  refine ⟨rfl, ?_, ?_⟩ <;> cases ok <;> simp [send_snapshot_message, hcool, hmsg]

theorem analysis_failure_degrades_witness :
    openai_analyze true [] [] (fun _ => ServiceOutcome.exn) = none ∧
    (send_snapshot_message 70 none 0 true true [] []
        (openai_analyze true [] [] fun _ => ServiceOutcome.exn) "12:00").deliveryCalls = 1 ∧
    (send_snapshot_message 70 none 0 true true [] []
        (openai_analyze true [] [] fun _ => ServiceOutcome.exn) "12:00").message =
      some ("*Snapshot (UTC " ++ "12:00" ++ ")*\n"
        ++ pyJoin "\n" (SYMBOLS.map (headerLine []))) :=
  analysis_failure_degrades [] [] (fun _ => ServiceOutcome.exn) 70 none 0 true true "12:00"
    rfl rfl

theorem str_ext {a b : String} (h : a.data = b.data) : a = b := by
  cases a
  cases b
  exact congrArg String.mk h

theorem str_append_assoc (a b c : String) : a ++ b ++ c = a ++ (b ++ c) :=
  str_ext (by simp [str_data_append])

theorem candleLine_shape (cm : CandleMap) (s : String) :
    ∃ rest : String, candleLine cm s = s ++ (" last 10 candles (OHLC): " ++ rest) := by
  unfold candleLine
  split
  · exact ⟨"DATA_MISSING", rfl⟩
  · exact ⟨pyJoin ", " ((last10 ((cm.lookup s).getD [])).map candleText),
      str_append_assoc _ _ _⟩

theorem candle_countP (cm : CandleMap) (s : String) (hs : s ∈ SYMBOLS) :
    ((SYMBOLS.map (candleLine cm)).countP
      fun ln => pyStartsWith (s ++ " last 10 candles") ln) = 1 := by
  obtain ⟨rb, hb⟩ := candleLine_shape cm "BTCUSDT"
  obtain ⟨re, heth⟩ := candleLine_shape cm "ETHUSDT"
  obtain ⟨rs2, hsol⟩ := candleLine_shape cm "SOLUSDT"
  have hmap : SYMBOLS.map (candleLine cm)
      = [candleLine cm "BTCUSDT", candleLine cm "ETHUSDT", candleLine cm "SOLUSDT"] := rfl
  rcases mem_SYMBOLS s hs with rfl | rfl | rfl
  · have e1 : pyStartsWith ("BTCUSDT" ++ " last 10 candles")
        ("BTCUSDT" ++ (" last 10 candles (OHLC): " ++ rb)) = true := rfl
    have e2 : pyStartsWith ("BTCUSDT" ++ " last 10 candles")
        ("ETHUSDT" ++ (" last 10 candles (OHLC): " ++ re)) = false := rfl
    have e3 : pyStartsWith ("BTCUSDT" ++ " last 10 candles")
        ("SOLUSDT" ++ (" last 10 candles (OHLC): " ++ rs2)) = false := rfl
    rw [hmap, hb, heth, hsol]
    simp only [List.countP_cons, List.countP_nil, e1, e2, e3]
    simp
  · have e1 : pyStartsWith ("ETHUSDT" ++ " last 10 candles")
        ("BTCUSDT" ++ (" last 10 candles (OHLC): " ++ rb)) = false := rfl
    have e2 : pyStartsWith ("ETHUSDT" ++ " last 10 candles")
        ("ETHUSDT" ++ (" last 10 candles (OHLC): " ++ re)) = true := rfl
    have e3 : pyStartsWith ("ETHUSDT" ++ " last 10 candles")
        ("SOLUSDT" ++ (" last 10 candles (OHLC): " ++ rs2)) = false := rfl
    rw [hmap, hb, heth, hsol]
    simp only [List.countP_cons, List.countP_nil, e1, e2, e3]
    simp
  · have e1 : pyStartsWith ("SOLUSDT" ++ " last 10 candles")
        ("BTCUSDT" ++ (" last 10 candles (OHLC): " ++ rb)) = false := rfl
    have e2 : pyStartsWith ("SOLUSDT" ++ " last 10 candles")
        ("ETHUSDT" ++ (" last 10 candles (OHLC): " ++ re)) = false := rfl
    have e3 : pyStartsWith ("SOLUSDT" ++ " last 10 candles")
        ("SOLUSDT" ++ (" last 10 candles (OHLC): " ++ rs2)) = true := rfl
    rw [hmap, hb, heth, hsol]
    simp only [List.countP_cons, List.countP_nil, e1, e2, e3]
    simp

/-- C8: the analysis prompt ends with exactly one labeled candle line per
symbol; a symbol with an empty fetched candle list gets the DATA_MISSING
token on that line, and otherwise the line lists the OHLC of the last at
most 10 candles of the fetched sequence. -/
theorem prompt_candle_lines (mm : MarketMap) (cm : CandleMap) (s : String) (hs : s ∈ SYMBOLS) :
    promptParts mm cm = promptPrelude mm ++ SYMBOLS.map (candleLine cm) ∧
    candleLine cm s ∈ promptParts mm cm ∧
    ((SYMBOLS.map (candleLine cm)).countP
      fun ln => pyStartsWith (s ++ " last 10 candles") ln) = 1 ∧
    ((cm.lookup s).getD [] = [] →
      candleLine cm s = s ++ " last 10 candles (OHLC): DATA_MISSING") ∧
    (∀ l : List Candle, (cm.lookup s).getD [] = l → l ≠ [] →
      candleLine cm s = s ++ " last 10 candles (OHLC): "
        ++ pyJoin ", " ((last10 l).map candleText) ∧
      last10 l = l.drop (l.length - 10) ∧ (last10 l).length ≤ 10) := by
  refine ⟨rfl, ?_, candle_countP cm s hs, ?_, ?_⟩
  · exact List.mem_append_right _ (List.mem_map_of_mem (candleLine cm) hs)
  · intro h
    unfold candleLine
    rw [h]
    simp
  · intro l hl hne
    cases l with
    | nil => exact absurd rfl hne
    | cons x xs =>
      refine ⟨?_, rfl, ?_⟩
      · unfold candleLine
        rw [hl]
        rfl
      · unfold last10
        rw [List.length_drop]
        omega

theorem prompt_candle_lines_witness :
    candleLine [("BTCUSDT", [])] "BTCUSDT" ∈ promptParts [] [("BTCUSDT", [])] ∧
    candleLine [("BTCUSDT", [])] "BTCUSDT"
      = "BTCUSDT" ++ " last 10 candles (OHLC): DATA_MISSING" := by
  have h := prompt_candle_lines [] [("BTCUSDT", [])] "BTCUSDT" (by decide)
  exact ⟨h.2.1, h.2.2.2.1 (by decide)⟩

/-- C6 counterexample: the response text "10 20" is a single line that the
code's own dump heuristic classifies as a numbered candle dump, yet the
post-processing surfaces it unchanged — the filter's fallback restores the
lines when every line looks like a dump, so dump-like lines are not always
filtered out. -/
theorem analysis_dump_not_filtered :
    isCandleDump "10 20" = true ∧
    openai_post "10 20" = "10 20" ∧
    clean_analysis_text (some (openai_post "10 20")) 5 = "10 20" := by
  refine ⟨by decide, by decide, by decide⟩

/-- C6 amended: the post-processing strips blank lines, keeps only (lines
among) the first 6 non-blank lines when the response exceeds 6, caps the
surfaced lines at 5, truncates each line over 220 chars to its
right-stripped 200-char prefix plus an ellipsis (so every surfaced line has
at most 220 chars), and filters out dump-like lines — except that when
every non-blank line looks like a dump the lines are kept unfiltered. -/
theorem analysis_postprocessing_amended (raw : String) :
    (6 < (stripNonblank (pyStrip raw)).length →
      openai_post raw = pyJoin "\n" ((stripNonblank (pyStrip raw)).take 6)) ∧
    (∀ ln ∈ cleanLines (some (openai_post raw)) 5, ln ≠ "") ∧
    (cleanLines (some (openai_post raw)) 5).length ≤ 5 ∧
    (∀ ln ∈ cleanLines (some (openai_post raw)) 5, ln.length ≤ 220) ∧
    (∀ ln ∈ cleanLines (some (openai_post raw)) 5,
      ∃ x ∈ stripNonblank (openai_post raw), ln = truncLine x) ∧
    ((∃ ln ∈ stripNonblank (openai_post raw), isCandleDump ln = false) →
      cleanLines (some (openai_post raw)) 5 =
        shortLoop 5 ((stripNonblank (openai_post raw)).filter fun ln => !(isCandleDump ln))) ∧
    ((stripNonblank (openai_post raw)).all isCandleDump = true →
      cleanLines (some (openai_post raw)) 5 = shortLoop 5 (stripNonblank (openai_post raw))) := by
  have hsb : stripNonblank "" = [] := rfl
  refine ⟨?_, ?_, ?_, ?_, ?_, ?_, ?_⟩
  · intro h
    unfold openai_post
    rw [if_pos h]
  · intro ln hln
    by_cases ht : openai_post raw = ""
    · rw [ht] at hln
      simp [cleanLines] at hln
    · rw [cleanLines_eq _ _ ht] at hln
      obtain ⟨x, hx, rfl⟩ := shortLoop_mem _ _ _ hln
      exact truncLine_ne x (mem_stripNonblank_ne _ _ (dumpFiltered_sub _ _ hx))
  · by_cases ht : openai_post raw = ""
    · rw [ht]
      simp [cleanLines]
    · rw [cleanLines_eq _ _ ht]
      exact shortLoop_length 5 _ (by norm_num)
  · intro ln hln
    by_cases ht : openai_post raw = ""
    · rw [ht] at hln
      simp [cleanLines] at hln
    · rw [cleanLines_eq _ _ ht] at hln
      obtain ⟨x, _, rfl⟩ := shortLoop_mem _ _ _ hln
      exact truncLine_length x
  · intro ln hln
    by_cases ht : openai_post raw = ""
    · rw [ht] at hln
      simp [cleanLines] at hln
    · rw [cleanLines_eq _ _ ht] at hln
      obtain ⟨x, hx, rfl⟩ := shortLoop_mem _ _ _ hln
      exact ⟨x, dumpFiltered_sub _ _ hx, rfl⟩
  · rintro ⟨ln0, hmem, hnd⟩
    have ht : openai_post raw ≠ "" := by
      intro h
      rw [h, hsb] at hmem
      cases hmem
    rw [cleanLines_eq _ _ ht]
    have hne : ((stripNonblank (openai_post raw)).filter
        fun ln => !(isCandleDump ln)) ≠ [] :=
      List.ne_nil_of_mem (List.mem_filter_of_mem hmem (by simp [hnd]))
    unfold dumpFiltered
    rw [if_neg (by simpa [List.isEmpty_iff] using hne)]
  · intro hall
    by_cases ht : openai_post raw = ""
    · rw [ht, hsb]
      rfl
    · rw [cleanLines_eq _ _ ht]
      have hnil : ((stripNonblank (openai_post raw)).filter
          fun ln => !(isCandleDump ln)) = [] := by
        rw [List.filter_eq_nil_iff]
        intro a ha
        have := (List.all_eq_true.mp hall) a ha
        simp [this]
      unfold dumpFiltered
      rw [if_pos (by simp [hnil])]

theorem analysis_postprocessing_amended_witness :
    cleanLines (some (openai_post "hello")) 5 =
      shortLoop 5 ((stripNonblank (openai_post "hello")).filter fun ln => !(isCandleDump ln)) :=
  (analysis_postprocessing_amended "hello").2.2.2.2.2.1 ⟨"hello", by decide, by decide⟩
